import Mathlib

/-!
Verification of the nmap-exporter core: the batch scan scheduler
(`src/exporter.py`) and the GeoIP enrichment cache
(`src/modules/geoip_enricher.py`, `src/modules/prometheus_format.py`),
shallowly embedded in Lean.
-/

namespace NmapExporter

/-! ## Batch scheduler (src/exporter.py)

`batches = [target_list[i:i + batch_size] for i in range(0, target_count, batch_size)]`
(exporter.py line 134).  Each step of the comprehension takes the next
`batch_size`-slice of the remaining list; with `batch_size = 0` Python's
`range` would raise, so the model returns `[]` in that degenerate case
(all claims assume `batch_size > 0`). -/

def makeBatches (targets : List String) (batchSize : Nat) : List (List String) :=
  if _h : batchSize = 0 ∨ targets = [] then []
  else
    targets.take batchSize :: makeBatches (targets.drop batchSize) batchSize
  termination_by targets.length
  decreasing_by
    simp only [not_or] at _h
    have h1 : 0 < batchSize := Nat.pos_of_ne_zero _h.1
    have h2 : targets ≠ [] := _h.2
    have : 0 < targets.length := List.length_pos.mpr h2
    simp only [List.length_drop]
    omega

/-! ## Batch outcome aggregation (src/exporter.py lines 149-191)

Each batch's scan either yields a result (`scan_batch` returned a scanner
instance) or fails (it returned `None` with an error, or `future.result()`
raised).  The collection loop appends successful results to
`batch_results`, increments `successful_batches` on success and
`failed_batches` on failure.  A batch outcome is modelled as
`Option ScanData`: `some` = a successful scan result, `none` = failure. -/

structure CycleCounts (R : Type) where
  successful_batches : Nat
  failed_batches : Nat
  batch_results : List R
deriving Repr, DecidableEq

/-- The aggregation loop of `main` (exporter.py lines 153-191), folded over
the batch outcomes in completion order. -/
def collectOutcomes {R : Type} (outcomes : List (Option R)) : CycleCounts R :=
  outcomes.foldl
    (fun c o =>
      match o with
      | some r => { c with successful_batches := c.successful_batches + 1,
                           batch_results := c.batch_results ++ [r] }
      | none => { c with failed_batches := c.failed_batches + 1 })
    ⟨0, 0, []⟩

/-! ## Python dict model

`GeoIPEnricher._cache` is a Python `dict` (`ip → (data, timestamp)`), and
`enrich_batch` builds a `dict` comprehension.  A dict is modelled as an
association list in insertion order; assignment (`d[k] = v`) overwrites the
value of an existing key in place and otherwise appends the new key at the
end, exactly as Python dicts do. -/

abbrev Dict (V : Type) := List (String × V)

def dictFind {V : Type} : Dict V → String → Option V
  | [], _ => none
  | (k', v) :: rest, k => if k' = k then some v else dictFind rest k

def dictInsert {V : Type} : Dict V → String → V → Dict V
  | [], k, v => [(k, v)]
  | (k', v') :: rest, k, v =>
      if k' = k then (k, v) :: rest else (k', v') :: dictInsert rest k v

def dictKeys {V : Type} (d : Dict V) : List String := d.map Prod.fst

/-! ## Connection-type classifier
(`GeoIPEnricher._infer_connection_type`, geoip_enricher.py lines 46-81)

`combined = f"{isp} {org} {asn}".lower()` and each keyword test is
Python's substring operator `kw in combined`. -/

/-- Python's `str.lower()` on the basic-latin range, applied characterwise
(`Char.toLower` lowercases `A`-`Z` and leaves everything else alone). -/
def pyLower (s : String) : String := ⟨s.data.map Char.toLower⟩

/-- Python's substring test `kw in hay` (`"" in hay` is `True`). -/
def isSubstring (kw : List Char) : List Char → Bool
  | [] => kw.isEmpty
  | c :: rest => kw.isPrefixOf (c :: rest) || isSubstring kw rest

def mobile_keywords : List String :=
  ["mobile", "lte", "4g", "5g", "cellular", "wireless", "vodafone",
   "t-mobile", "verizon", "at&t", "att"]

def datacenter_keywords : List String :=
  ["aws", "amazon", "azure", "microsoft", "google cloud", "gcp", "hetzner",
   "ovh", "digitalocean", "linode", "vultr", "datacentre", "datacenter",
   "hosting", "cloud"]

def fiber_keywords : List String := ["fiber", "fibre", "ftth", "fttp"]

def dsl_keywords : List String := ["dsl", "vdsl", "adsl", "broadband"]

/-- Python's `any(kw in combined for kw in keywords)`. -/
def anyKeyword (combined : String) (kws : List String) : Bool :=
  kws.any fun kw => isSubstring kw.data combined.data

/-- Model of `GeoIPEnricher._infer_connection_type` (geoip_enricher.py lines 46-81):
the cascading `if` chain over the combined lowercased string. -/
def infer_connection_type (isp org asn : String) : String :=
  let combined := pyLower (isp ++ " " ++ org ++ " " ++ asn)
  if anyKeyword combined mobile_keywords then "mobile"
  else if anyKeyword combined datacenter_keywords then "datacentre"
  else if anyKeyword combined fiber_keywords then "fibre"
  else if anyKeyword combined dsl_keywords then "dsl"
  else "unknown"

/-- The spec's description of the classifier (spec.md section 4.3): an
ordered list of (category, keyword set) pairs, scanned once; the first
pair whose keyword set matches wins, `"unknown"` otherwise. -/
def orderedCategories : List (String × List String) :=
  [("mobile", mobile_keywords), ("datacentre", datacenter_keywords),
   ("fibre", fiber_keywords), ("dsl", dsl_keywords)]

def classifySpec (isp org asn : String) : String :=
  let combined := pyLower (isp ++ " " ++ org ++ " " ++ asn)
  match orderedCategories.find? (fun p => anyKeyword combined p.2) with
  | some p => p.1
  | none => "unknown"

/-! ## GeoIP enrichment cache (src/modules/geoip_enricher.py) -/

/-- The enriched data dictionary built by `GeoIPEnricher.enrich`
(geoip_enricher.py lines 168-176) and returned by `_empty_data`. -/
structure GeoRecord where
  asn : String
  isp : String
  org : String
  country : String
  city : String
  region : String
  connection_type : String
deriving Repr, DecidableEq

/-- The dictionary returned by `GeoIPEnricher._fetch_ipapi_co` on a 200
response (geoip_enricher.py lines 104-113). -/
structure RawGeoData where
  asn : String
  org : String
  isp : String
  country : String
  city : String
  region : String
  latitude : String
  longitude : String
deriving Repr, DecidableEq

/-- Model of `GeoIPEnricher._cache : ip -> (data, timestamp)`.  Timestamps
(`time.time()`) are modelled as integers. -/
abbrev GeoCache := Dict (GeoRecord × Int)

/-- Model of `GeoIPEnricher._is_cache_valid` (geoip_enricher.py lines 38-44). -/
def is_cache_valid (cache : GeoCache) (cache_ttl : Int) (now : Int)
    (ip : String) : Bool :=
  match dictFind cache ip with
  | none => false
  | some (_, timestamp) => now - timestamp < cache_ttl

/-- Model of `GeoIPEnricher._empty_data` (geoip_enricher.py lines 198-208). -/
def empty_data : GeoRecord :=
  { asn := "", isp := "", org := "", country := "", city := "", region := "",
    connection_type := "unknown" }

/-- Result of one `enrich` call: the returned record, the cache afterwards,
and whether a network fetch was attempted (`_fetch_ipapi_co` was called). -/
structure EnrichResult where
  record : GeoRecord
  cache : GeoCache
  fetchAttempted : Bool
deriving Repr, DecidableEq

/-- Model of `GeoIPEnricher.enrich` (geoip_enricher.py lines 127-182).  The single
network attempt `_fetch_ipapi_co` is modelled by its outcome
`fetchResult : Option RawGeoData` (`none` covers timeout, transport error,
non-200 status and the 429 rate-limit signal, all of which make
`_fetch_ipapi_co` return `None` rather than raise); the provider check at
lines 145-149 sets `raw_data = None` without any fetch when the provider
is not `"ipapi.co"`.  The function is total: no path raises. -/
def enrich (provider : String) (cache_ttl : Int) (cache : GeoCache)
    (ip : String) (fetchResult : Option RawGeoData) (now : Int) : EnrichResult :=
  if is_cache_valid cache cache_ttl now ip then
    match dictFind cache ip with
    | some (data, _) => ⟨data, cache, false⟩
    | none => ⟨empty_data, cache, false⟩   -- dead: validity implies presence
  else
    let raw_data : Option RawGeoData :=
      if provider = "ipapi.co" then fetchResult else none
    let attempted : Bool := provider = "ipapi.co"
    match raw_data with
    | none =>
      match dictFind cache ip with
      | some (data, _) => ⟨data, cache, attempted⟩
      | none => ⟨empty_data, cache, attempted⟩
    | some raw =>
      let connection_type := infer_connection_type raw.isp raw.org raw.asn
      let enriched_data : GeoRecord :=
        { asn := raw.asn, isp := raw.isp, org := raw.org,
          country := raw.country, city := raw.city, region := raw.region,
          connection_type := connection_type }
      ⟨enriched_data, dictInsert cache ip (enriched_data, now), attempted⟩

/-- Model of the `GeoIPEnricher.enrich_batch` task fan-out (geoip_enricher.py line 194):
one `enrich` coroutine is created per element of `ips`; the cache updates
are threaded through in order.  Returns the per-element result records (in
input order), the final cache, and the number of `enrich` calls made. -/
def enrichAll (provider : String) (cache_ttl : Int) (fetch : String → Option RawGeoData)
    (now : Int) : GeoCache → List String → (List GeoRecord × GeoCache × Nat)
  | cache, [] => ([], cache, 0)
  | cache, ip :: rest =>
      let r := enrich provider cache_ttl cache ip (fetch ip) now
      let (records, cache', n) := enrichAll provider cache_ttl fetch now r.cache rest
      (r.record :: records, cache', n + 1)

/-- The dict comprehension `{ip: result for ip, result in zip(ips, results)}`
(geoip_enricher.py line 196). -/
def dictOfPairs {V : Type} (pairs : List (String × V)) : Dict V :=
  pairs.foldl (fun d p => dictInsert d p.1 p.2) []

/-- Model of `GeoIPEnricher.enrich_batch` (geoip_enricher.py lines 184-196):
the returned mapping and the final cache. -/
def enrich_batch (provider : String) (cache_ttl : Int) (cache : GeoCache)
    (ips : List String) (fetch : String → Option RawGeoData) (now : Int) :
    Dict GeoRecord × GeoCache :=
  let (records, cache', _) := enrichAll provider cache_ttl fetch now cache ips
  (dictOfPairs (ips.zip records), cache')

/-! ## Metric emission (src/modules/prometheus_format.py lines 50-87)

Each data line of `nm.csv()` parses to one ServiceRecord
(`host, _, _, prot, port, name, _, prod`); the loop always sets the base
gauge and additionally sets the GeoIP-enriched gauge when
`geoip_data and host in geoip_data` (Python truthiness: `None` and the
empty dict are falsy). -/

structure ScanRow where
  host : String
  protocol : String
  port : Nat
  name : String
  product_detected : String
deriving Repr, DecidableEq

inductive Metric where
  | base (host target protocol name product_detected : String) (value : Nat)
  | enriched (host target protocol name product_detected
      isp asn country city connection_type : String) (value : Nat)
deriving Repr, DecidableEq

/-- Python's `hostname_map.get(host, host) if hostname_map else host`
(prometheus_format.py line 68; `None` and the empty dict are falsy). -/
def pyTarget (hostname_map : Option (Dict String)) (host : String) : String :=
  match hostname_map with
  | some m => if m.isEmpty then host else (dictFind m host).getD host
  | none => host

/-- The body of the per-record loop (prometheus_format.py lines 64-87). -/
def emitRow (geoip_data : Option (Dict GeoRecord))
    (hostname_map : Option (Dict String)) (row : ScanRow) : List Metric :=
  let target := pyTarget hostname_map row.host
  let base := Metric.base row.host target row.protocol row.name
      row.product_detected row.port
  match geoip_data with
  | some gd =>
    if gd.isEmpty then [base]
    else
      match dictFind gd row.host with
      | some geo =>
          [base,
           Metric.enriched row.host target row.protocol row.name
             row.product_detected geo.isp geo.asn geo.country geo.city
             geo.connection_type row.port]
      | none => [base]
  | none => [base]

/-- Model of `expose_nmap_scan_results` (prometheus_format.py lines 50-87) as the
sequence of gauge updates it performs. -/
def expose_nmap_scan_results (rows : List ScanRow)
    (geoip_data : Option (Dict GeoRecord))
    (hostname_map : Option (Dict String)) : List Metric :=
  (rows.map (emitRow geoip_data hostname_map)).flatten

/-- Whether the enrichment mapping holds a GeoRecord for `host`
(`none` when GeoIP is disabled or enrichment failed). -/
def geoLookup (geoip_data : Option (Dict GeoRecord)) (host : String) :
    Option GeoRecord :=
  match geoip_data with
  | some gd => dictFind gd host
  | none => none

theorem makeBatches_nil (B : Nat) : makeBatches [] B = [] := by
  rw [makeBatches]
  simp

theorem makeBatches_zero (l : List String) : makeBatches l 0 = [] := by
  rw [makeBatches]
  simp

theorem makeBatches_cons (l : List String) (B : Nat) (hB : 0 < B) (hl : l ≠ []) :
    makeBatches l B = l.take B :: makeBatches (l.drop B) B := by
  rw [makeBatches]
  simp [Nat.pos_iff_ne_zero.mp hB, hl]

theorem makeBatches_length (l : List String) (B : Nat) : 0 < B →
    (makeBatches l B).length = (l.length + B - 1) / B := by
  induction l, B using makeBatches.induct with
  | case1 l B h =>
    intro hB
    rcases h with h | h
    · omega
    · subst h
      rw [makeBatches_nil]
      simp only [List.length_nil, Nat.zero_add]
      rw [Nat.div_eq_of_lt (by omega)]
  | case2 l B h ih =>
    intro hB
    simp only [not_or] at h
    have hl : l ≠ [] := h.2
    have hN : 0 < l.length := List.length_pos.mpr hl
    rw [makeBatches_cons l B hB hl]
    simp only [List.length_cons, ih hB, List.length_drop]
    rcases le_or_lt B l.length with hle | hlt
    · have e1 : l.length - B + B - 1 = l.length - 1 := by omega
      have e2 : l.length + B - 1 = (l.length - 1) + B := by omega
      rw [e1, e2, Nat.add_div_right _ hB]
    · have e1 : l.length - B = 0 := by omega
      have e2 : l.length + B - 1 = (l.length - 1) + B := by omega
      rw [e1, e2, Nat.add_div_right _ hB]
      have h1 : (0 + B - 1) / B = 0 := Nat.div_eq_of_lt (by omega)
      have h2 : (l.length - 1) / B = 0 := Nat.div_eq_of_lt (by omega)
      omega

theorem makeBatches_join (l : List String) (B : Nat) : 0 < B →
    (makeBatches l B).flatten = l := by
  induction l, B using makeBatches.induct with
  | case1 l B h =>
    intro hB
    rcases h with h | h
    · omega
    · subst h; rw [makeBatches_nil]; rfl
  | case2 l B h ih =>
    intro hB
    simp only [not_or] at h
    rw [makeBatches_cons l B hB h.2]
    simp [ih hB]

theorem makeBatches_get (l : List String) (B : Nat) : 0 < B →
    ∀ i (h : i < (makeBatches l B).length),
      (makeBatches l B)[i] = (l.drop (i * B)).take B := by
  induction l, B using makeBatches.induct with
  | case1 l B h =>
    intro hB i hi
    rcases h with h | h
    · omega
    · subst h
      rw [makeBatches_nil] at hi
      exact absurd hi (by simp)
  | case2 l B h ih =>
    intro hB i hi
    simp only [not_or] at h
    rw [List.getElem_of_eq (makeBatches_cons l B hB h.2) hi]
    cases i with
    | zero => simp
    | succ j =>
      have hj : j < (makeBatches (l.drop B) B).length := by
        have hi2 := hi
        rw [makeBatches_cons l B hB h.2] at hi2
        simpa using hi2
      simp only [List.getElem_cons_succ]
      rw [ih hB j hj, List.drop_drop]
      congr 2
      ring

/-- C1: for every target sequence of length N and every batch size B > 0,
`makeBatches` (the comprehension at exporter.py:134) produces exactly
`ceil(N/B) = (N + B - 1) / B` contiguous batches, batch `i` being the slice
`targets[i*B : (i+1)*B)`, and concatenating the batches in index order
yields the original sequence (so no target is omitted and none is
duplicated across batches). -/
theorem C1_scheduler_partitions (targets : List String) (B : Nat) (hB : 0 < B) :
    (makeBatches targets B).length = (targets.length + B - 1) / B ∧
    (∀ i (h : i < (makeBatches targets B).length),
        (makeBatches targets B)[i] = (targets.drop (i * B)).take B) ∧
    (makeBatches targets B).flatten = targets :=
  ⟨makeBatches_length targets B hB, makeBatches_get targets B hB,
   makeBatches_join targets B hB⟩

/-- Witness for C1 at targets = ["10.0.0.1", "10.0.0.2", "10.0.0.3"], B = 2. -/
theorem C1_scheduler_partitions_witness :
    (makeBatches ["10.0.0.1", "10.0.0.2", "10.0.0.3"] 2).length = (3 + 2 - 1) / 2 ∧
    (∀ i (h : i < (makeBatches ["10.0.0.1", "10.0.0.2", "10.0.0.3"] 2).length),
        (makeBatches ["10.0.0.1", "10.0.0.2", "10.0.0.3"] 2)[i] =
          ((["10.0.0.1", "10.0.0.2", "10.0.0.3"] : List String).drop (i * 2)).take 2) ∧
    (makeBatches ["10.0.0.1", "10.0.0.2", "10.0.0.3"] 2).flatten =
      ["10.0.0.1", "10.0.0.2", "10.0.0.3"] := by
  have h := C1_scheduler_partitions ["10.0.0.1", "10.0.0.2", "10.0.0.3"] 2 (by decide)
  simpa using h

theorem collectOutcomes_go {R : Type} (outcomes : List (Option R)) :
    ∀ c : CycleCounts R,
      outcomes.foldl
        (fun c o =>
          match o with
          | some r => { c with successful_batches := c.successful_batches + 1,
                               batch_results := c.batch_results ++ [r] }
          | none => { c with failed_batches := c.failed_batches + 1 })
        c =
      ⟨c.successful_batches + (outcomes.countP Option.isSome),
       c.failed_batches + (outcomes.countP Option.isNone),
       c.batch_results ++ outcomes.filterMap id⟩ := by
  induction outcomes with
  | nil => intro c; simp [List.countP_nil]
  | cons o rest ih =>
    intro c
    cases o with
    | some r =>
      simp only [List.foldl_cons, ih, List.countP_cons, List.filterMap_cons]
      simp [List.countP]
      omega
    | none =>
      simp only [List.foldl_cons, ih, List.countP_cons, List.filterMap_cons]
      simp [List.countP]
      omega

theorem collectOutcomes_eq {R : Type} (outcomes : List (Option R)) :
    collectOutcomes outcomes =
      ⟨outcomes.countP Option.isSome,
       outcomes.countP Option.isNone,
       outcomes.filterMap id⟩ := by
  rw [collectOutcomes, collectOutcomes_go]
  simp

/-- C2: every batch outcome is counted as exactly one of success or failure,
so `successful_batches + failed_batches` equals the number of batches
(exporter.py lines 149-191); the collected results are exactly the results
of the successful batches, and a failing batch (`none`) at any position
leaves the results and the success count of the other batches unchanged,
only incrementing the failure count by one. -/
theorem C2_batch_failure_isolation {R : Type} (outcomes : List (Option R)) :
    (collectOutcomes outcomes).successful_batches
        + (collectOutcomes outcomes).failed_batches = outcomes.length ∧
    (collectOutcomes outcomes).batch_results = outcomes.filterMap id ∧
    (∀ pre suf : List (Option R),
      (collectOutcomes (pre ++ none :: suf)).batch_results
          = (collectOutcomes (pre ++ suf)).batch_results ∧
      (collectOutcomes (pre ++ none :: suf)).successful_batches
          = (collectOutcomes (pre ++ suf)).successful_batches ∧
      (collectOutcomes (pre ++ none :: suf)).failed_batches
          = (collectOutcomes (pre ++ suf)).failed_batches + 1) := by
  refine ⟨?_, ?_, ?_⟩
  · rw [collectOutcomes_eq]
    show outcomes.countP Option.isSome + outcomes.countP Option.isNone = outcomes.length
    induction outcomes with
    | nil => rfl
    | cons o rest ih =>
      cases o <;> simp [List.countP_cons] <;> omega
  · rw [collectOutcomes_eq]
  · intro pre suf
    rw [collectOutcomes_eq, collectOutcomes_eq]
    refine ⟨?_, ?_, ?_⟩
    · simp
    · simp [List.countP_append, List.countP_cons]
    · simp [List.countP_append, List.countP_cons]
      omega

theorem dictFind_insert_self {V : Type} (d : Dict V) (k : String) (v : V) :
    dictFind (dictInsert d k v) k = some v := by
  induction d with
  | nil => simp [dictInsert, dictFind]
  | cons p rest ih =>
    obtain ⟨k', v'⟩ := p
    by_cases h : k' = k <;> simp [dictInsert, dictFind, h, ih]

theorem dictFind_insert_ne {V : Type} (d : Dict V) (k k₀ : String) (v : V)
    (h : k ≠ k₀) : dictFind (dictInsert d k v) k₀ = dictFind d k₀ := by
  induction d with
  | nil => simp [dictInsert, dictFind, h]
  | cons p rest ih =>
    obtain ⟨k', v'⟩ := p
    by_cases h' : k' = k
    · subst h'
      simp [dictInsert, dictFind, h]
    · simp only [dictInsert, if_neg h']
      by_cases h'' : k' = k₀ <;> simp [dictFind, h'', ih]

theorem dictKeys_insert {V : Type} (d : Dict V) (k : String) (v : V) :
    dictKeys (dictInsert d k v) =
      if k ∈ dictKeys d then dictKeys d else dictKeys d ++ [k] := by
  induction d with
  | nil => simp [dictInsert, dictKeys]
  | cons p rest ih =>
    obtain ⟨k', v'⟩ := p
    by_cases h : k' = k
    · subst h
      simp [dictInsert, dictKeys]
    · simp only [dictInsert, if_neg h, dictKeys, List.map_cons] at ih ⊢
      rw [ih]
      by_cases hm : k ∈ rest.map Prod.fst <;>
        simp [hm, Ne.symm h]

theorem dictKeys_insert_nodup {V : Type} (d : Dict V) (k : String) (v : V)
    (h : (dictKeys d).Nodup) : (dictKeys (dictInsert d k v)).Nodup := by
  rw [dictKeys_insert]
  by_cases hm : k ∈ dictKeys d
  · simpa [hm] using h
  · simp only [hm, if_false]
    simpa [List.nodup_append] using ⟨h, hm⟩

theorem dictKeys_insert_mem {V : Type} (d : Dict V) (k k₀ : String) (v : V)
    (h : k₀ ∈ dictKeys d) : k₀ ∈ dictKeys (dictInsert d k v) := by
  rw [dictKeys_insert]
  by_cases hm : k ∈ dictKeys d <;> simp [hm, h]

theorem dictFind_isSome_of_mem {V : Type} (d : Dict V) (k : String)
    (h : k ∈ dictKeys d) : (dictFind d k).isSome := by
  induction d with
  | nil => simp [dictKeys] at h
  | cons p rest ih =>
    obtain ⟨k', v'⟩ := p
    by_cases h' : k' = k
    · simp [dictFind, h']
    · simp only [dictKeys, List.map_cons, List.mem_cons] at h
      rcases h with h | h
      · exact absurd h.symm h'
      · simpa [dictFind, h'] using ih h

theorem is_cache_valid_iff (cache : GeoCache) (ttl now : Int) (ip : String) :
    is_cache_valid cache ttl now ip = true ↔
      ∃ data t0, dictFind cache ip = some (data, t0) ∧ now - t0 < ttl := by
  unfold is_cache_valid
  cases hf : dictFind cache ip with
  | none => simp
  | some p =>
    obtain ⟨d, t⟩ := p
    simp only [decide_eq_true_eq, hf]
    constructor
    · intro h
      exact ⟨d, t, rfl, h⟩
    · rintro ⟨data, t0, heq, h⟩
      cases heq
      exact h

theorem enrich_cache_valid (provider : String) (ttl : Int) (cache : GeoCache)
    (ip : String) (fr : Option RawGeoData) (now : Int) (data : GeoRecord) (t0 : Int)
    (hfind : dictFind cache ip = some (data, t0))
    (hv : is_cache_valid cache ttl now ip = true) :
    enrich provider ttl cache ip fr now = ⟨data, cache, false⟩ := by
  unfold enrich
  rw [if_pos hv, hfind]

theorem enrich_fetch_failed (provider : String) (ttl : Int) (cache : GeoCache)
    (ip : String) (fr : Option RawGeoData) (now : Int)
    (hv : is_cache_valid cache ttl now ip = false)
    (hraw : (if provider = "ipapi.co" then fr else none) = none) :
    enrich provider ttl cache ip fr now =
      ⟨(match dictFind cache ip with
         | some (data, _) => data
         | none => empty_data), cache,
        decide (provider = "ipapi.co")⟩ := by
  unfold enrich
  rw [if_neg (by simp [hv])]
  simp only [hraw]
  cases hf : dictFind cache ip with
  | none => rfl
  | some p =>
    obtain ⟨d, t⟩ := p
    rfl

theorem enrich_fetch_success (ttl : Int) (cache : GeoCache)
    (ip : String) (raw : RawGeoData) (now : Int)
    (hv : is_cache_valid cache ttl now ip = false) :
    enrich "ipapi.co" ttl cache ip (some raw) now =
      (let enriched_data : GeoRecord :=
        { asn := raw.asn, isp := raw.isp, org := raw.org,
          country := raw.country, city := raw.city, region := raw.region,
          connection_type := infer_connection_type raw.isp raw.org raw.asn }
       ⟨enriched_data, dictInsert cache ip (enriched_data, now), true⟩) := by
  unfold enrich
  rw [if_neg (by simp [hv])]
  rfl

/-- C6: a cache entry fetched at `t0` with TTL `T` is valid exactly when
`now - t0 < T` (`_is_cache_valid`, geoip_enricher.py lines 38-44), hence
valid throughout `[t0, t0 + T)` and invalid for `now ≥ t0 + T`; when a
valid entry exists, `enrich` returns the cached record with no network
fetch and no cache change; an entry becoming stale is never deleted — any
key present before an `enrich` call is still present after it. -/
theorem C6_cache_ttl_validity (cache : GeoCache) (ttl now t0 : Int)
    (ip : String) (data : GeoRecord)
    (hfind : dictFind cache ip = some (data, t0)) :
    (is_cache_valid cache ttl now ip = true ↔ now - t0 < ttl) ∧
    (t0 ≤ now → now < t0 + ttl → is_cache_valid cache ttl now ip = true) ∧
    (t0 + ttl ≤ now → is_cache_valid cache ttl now ip = false) ∧
    (∀ provider fr, is_cache_valid cache ttl now ip = true →
        enrich provider ttl cache ip fr now = ⟨data, cache, false⟩) ∧
    (∀ provider fr k, k ∈ dictKeys cache →
        k ∈ dictKeys (enrich provider ttl cache ip fr now).cache) := by
  have hiff : is_cache_valid cache ttl now ip = true ↔ now - t0 < ttl := by
    rw [is_cache_valid_iff]
    constructor
    · rintro ⟨d, t, hf, hlt⟩
      rw [hfind] at hf
      cases hf
      exact hlt
    · intro hlt
      exact ⟨data, t0, hfind, hlt⟩
  refine ⟨hiff, ?_, ?_, ?_, ?_⟩
  · intro h1 h2
    exact hiff.mpr (by omega)
  · intro h
    rcases hb : is_cache_valid cache ttl now ip with _ | _
    · rfl
    · have := hiff.mp hb
      omega
  · intro provider fr hv
    exact enrich_cache_valid provider ttl cache ip fr now data t0 hfind hv
  · intro provider fr k hk
    rcases hb : is_cache_valid cache ttl now ip with _ | _
    · unfold enrich
      rw [if_neg (by simp [hb])]
      cases hfr : (if provider = "ipapi.co" then fr else none) with
      | none =>
        simp only [hfr]
        cases hf : dictFind cache ip with
        | none => simpa using hk
        | some p =>
          obtain ⟨d, t⟩ := p
          simpa using hk
      | some raw =>
        simp only [hfr]
        exact dictKeys_insert_mem cache ip k _ hk
    · unfold enrich
      rw [if_pos hb, hfind]
      simpa using hk

/-- Witness for C6: cache `[("1.2.3.4", (r, 100))]` with ttl 50:
valid at `now = 120`, invalid at `now = 150`. -/
theorem C6_cache_ttl_validity_witness :
    (is_cache_valid [("1.2.3.4", (empty_data, 100))] 50 120 "1.2.3.4" = true ↔
        (120 : Int) - 100 < 50) ∧
    is_cache_valid [("1.2.3.4", (empty_data, 100))] 50 120 "1.2.3.4" = true ∧
    is_cache_valid [("1.2.3.4", (empty_data, 100))] 50 150 "1.2.3.4" = false ∧
    enrich "ipapi.co" 50 [("1.2.3.4", (empty_data, 100))] "1.2.3.4" none 120 =
      ⟨empty_data, [("1.2.3.4", (empty_data, 100))], false⟩ := by
  have h120 := C6_cache_ttl_validity [("1.2.3.4", (empty_data, 100))] 50 120 100
      "1.2.3.4" empty_data (by rfl)
  have h150 := C6_cache_ttl_validity [("1.2.3.4", (empty_data, 100))] 50 150 100
      "1.2.3.4" empty_data (by rfl)
  refine ⟨h120.1, ?_, ?_, ?_⟩
  · exact h120.2.1 (by decide) (by decide)
  · exact h150.2.2.1 (by decide)
  · exact h120.2.2.2.1 "ipapi.co" none (h120.2.1 (by decide) (by decide))

/-- C3: `enrich` never raises on a lookup failure (it is a total function;
timeout, transport error, non-success status and the rate-limit signal all
surface as `_fetch_ipapi_co` returning `None`, modelled `fetchResult = none`);
exactly one fetch attempt is made (`fetchAttempted = true`, no retry), and on
that failure `enrich` returns the previously cached record unchanged when a
cache entry exists — even a stale one — and otherwise the empty record whose
`connection_type` is `"unknown"` and whose other fields are empty strings
(geoip_enricher.py lines 151-158 and 198-208). -/
theorem C3_fetch_failure_fallback (ttl : Int) (cache : GeoCache) (ip : String)
    (now : Int) (hmiss : is_cache_valid cache ttl now ip = false) :
    (∀ data t0, dictFind cache ip = some (data, t0) →
        enrich "ipapi.co" ttl cache ip none now = ⟨data, cache, true⟩) ∧
    (dictFind cache ip = none →
        enrich "ipapi.co" ttl cache ip none now = ⟨empty_data, cache, true⟩) ∧
    empty_data.connection_type = "unknown" ∧
    empty_data.asn = "" ∧ empty_data.isp = "" ∧ empty_data.org = "" ∧
    empty_data.country = "" ∧ empty_data.city = "" ∧ empty_data.region = "" := by
  have hbase := enrich_fetch_failed "ipapi.co" ttl cache ip none now hmiss (by simp)
  refine ⟨?_, ?_, rfl, rfl, rfl, rfl, rfl, rfl, rfl⟩
  · intro data t0 hf
    rw [hbase, hf]
    simp
  · intro hf
    rw [hbase, hf]
    simp

/-- Witness for C3 at a stale entry (`now - t0 = 100 ≥ ttl = 50`) and at a
missing entry. -/
theorem C3_fetch_failure_fallback_witness :
    enrich "ipapi.co" 50 [("1.2.3.4", (empty_data, 0))] "1.2.3.4" none 100 =
      ⟨empty_data, [("1.2.3.4", (empty_data, 0))], true⟩ ∧
    enrich "ipapi.co" 50 [] "5.6.7.8" none 100 = ⟨empty_data, [], true⟩ := by
  constructor
  · exact (C3_fetch_failure_fallback 50 [("1.2.3.4", (empty_data, 0))] "1.2.3.4"
      100 (by decide)).1 empty_data 0 (by rfl)
  · exact (C3_fetch_failure_fallback 50 [] "5.6.7.8" 100 (by rfl)).2.1 (by rfl)

/-- C10: with a provider other than `"ipapi.co"`, `enrich` on a cache miss
performs no fetch at all (`raw_data = None` at geoip_enricher.py lines
147-149) and behaves exactly like a failed fetch: it does not raise (the
model is total), returns the existing cached record when one exists — even
stale — and otherwise the empty record with `connection_type "unknown"`;
the cache is unchanged. -/
theorem C10_unsupported_provider (provider : String) (ttl : Int)
    (cache : GeoCache) (ip : String) (fr : Option RawGeoData) (now : Int)
    (hp : provider ≠ "ipapi.co")
    (hmiss : is_cache_valid cache ttl now ip = false) :
    (enrich provider ttl cache ip fr now).fetchAttempted = false ∧
    (∀ data t0, dictFind cache ip = some (data, t0) →
        enrich provider ttl cache ip fr now = ⟨data, cache, false⟩) ∧
    (dictFind cache ip = none →
        enrich provider ttl cache ip fr now = ⟨empty_data, cache, false⟩) ∧
    (enrich provider ttl cache ip fr now).record
        = (enrich "ipapi.co" ttl cache ip none now).record ∧
    (enrich provider ttl cache ip fr now).cache = cache := by
  have hbase := enrich_fetch_failed provider ttl cache ip fr now hmiss (by simp [hp])
  have hfail := enrich_fetch_failed "ipapi.co" ttl cache ip none now hmiss (by simp)
  refine ⟨?_, ?_, ?_, ?_, ?_⟩
  · rw [hbase]
    simp [hp]
  · intro data t0 hf
    rw [hbase, hf]
    simp [hp]
  · intro hf
    rw [hbase, hf]
    simp [hp]
  · rw [hbase, hfail]
  · rw [hbase]

/-- Witness for C10 with provider `"maxmind"`, a stale entry and a missing
entry. -/
theorem C10_unsupported_provider_witness :
    (enrich "maxmind" 50 [("1.2.3.4", (empty_data, 0))] "1.2.3.4" none 100).fetchAttempted
        = false ∧
    enrich "maxmind" 50 [("1.2.3.4", (empty_data, 0))] "1.2.3.4" none 100 =
      ⟨empty_data, [("1.2.3.4", (empty_data, 0))], false⟩ := by
  have h := C10_unsupported_provider "maxmind" 50 [("1.2.3.4", (empty_data, 0))]
      "1.2.3.4" none 100 (by decide) (by decide)
  exact ⟨h.1, h.2.1 empty_data 0 (by rfl)⟩

/-- C7: the cache keeps at most one entry per IP — starting from
duplicate-free keys (true of the initial empty cache), every `enrich` call
preserves duplicate-freedom; a successful fetch overwrites via dict
assignment (`dictInsert`) rather than appending a second entry, every
other path leaves the cache untouched, and no path ever removes a key
(geoip_enricher.py lines 127-182; `_cache` has no deletion operation). -/
theorem C7_cache_one_entry_per_ip (provider : String) (ttl : Int)
    (cache : GeoCache) (ip : String) (fr : Option RawGeoData) (now : Int)
    (hnd : (dictKeys cache).Nodup) :
    (dictKeys (enrich provider ttl cache ip fr now).cache).Nodup ∧
    (∀ k, k ∈ dictKeys cache →
        k ∈ dictKeys (enrich provider ttl cache ip fr now).cache) ∧
    ((enrich provider ttl cache ip fr now).cache = cache ∨
      (enrich provider ttl cache ip fr now).cache =
        dictInsert cache ip ((enrich provider ttl cache ip fr now).record, now)) := by
  have hcases : (enrich provider ttl cache ip fr now).cache = cache ∨
      (enrich provider ttl cache ip fr now).cache =
        dictInsert cache ip ((enrich provider ttl cache ip fr now).record, now) := by
    unfold enrich
    by_cases hv : is_cache_valid cache ttl now ip = true
    · rw [if_pos hv]
      cases hf : dictFind cache ip with
      | none => left; rfl
      | some p =>
        obtain ⟨d, t⟩ := p
        left; rfl
    · rw [if_neg hv]
      cases hfr : (if provider = "ipapi.co" then fr else none) with
      | none =>
        simp only [hfr]
        cases hf : dictFind cache ip with
        | none => left; rfl
        | some p =>
          obtain ⟨d, t⟩ := p
          left; rfl
      | some raw =>
        simp [hfr]
  refine ⟨?_, ?_, hcases⟩
  · rcases hcases with h | h
    · rw [h]; exact hnd
    · rw [h]
      exact dictKeys_insert_nodup cache ip _ hnd
  · intro k hk
    rcases hcases with h | h
    · rw [h]; exact hk
    · rw [h]
      exact dictKeys_insert_mem cache ip k _ hk

/-- Witness for C7: a successful fetch for an already-cached IP overwrites
the single entry in place. -/
theorem C7_cache_one_entry_per_ip_witness :
    (dictKeys (enrich "ipapi.co" 50 [("1.2.3.4", (empty_data, 0))] "1.2.3.4"
        (some ⟨"AS1", "Acme", "Acme", "ZA", "CPT", "WC", "", ""⟩) 100).cache).Nodup ∧
    (enrich "ipapi.co" 50 [("1.2.3.4", (empty_data, 0))] "1.2.3.4"
        (some ⟨"AS1", "Acme", "Acme", "ZA", "CPT", "WC", "", ""⟩) 100).cache =
      dictInsert [("1.2.3.4", (empty_data, 0))] "1.2.3.4"
        ((enrich "ipapi.co" 50 [("1.2.3.4", (empty_data, 0))] "1.2.3.4"
            (some ⟨"AS1", "Acme", "Acme", "ZA", "CPT", "WC", "", ""⟩) 100).record, 100) := by
  have h := C7_cache_one_entry_per_ip "ipapi.co" 50 [("1.2.3.4", (empty_data, 0))]
      "1.2.3.4" (some ⟨"AS1", "Acme", "Acme", "ZA", "CPT", "WC", "", ""⟩) 100
      (by decide)
  refine ⟨h.1, ?_⟩
  rcases h.2.2 with hc | hc
  · exact absurd hc (by decide)
  · exact hc

theorem infer_eq_classifySpec (isp org asn : String) :
    infer_connection_type isp org asn = classifySpec isp org asn := by
  unfold infer_connection_type classifySpec orderedCategories
  cases hm : anyKeyword (pyLower (isp ++ " " ++ org ++ " " ++ asn)) mobile_keywords <;>
  cases hd : anyKeyword (pyLower (isp ++ " " ++ org ++ " " ++ asn)) datacenter_keywords <;>
  cases hf : anyKeyword (pyLower (isp ++ " " ++ org ++ " " ++ asn)) fiber_keywords <;>
  cases hs : anyKeyword (pyLower (isp ++ " " ++ org ++ " " ++ asn)) dsl_keywords <;>
    simp [List.find?, hm, hd, hf, hs]

/-- C5: the classifier concatenates the three fields (space-separated),
lowercases the result, and tests the ordered category list mobile,
datacentre, fibre, dsl by substring matching; it equals the spec's
first-match-wins scan of that ordered list (`classifySpec`), a match in the
mobile set wins even if a later set also matches (so a string containing
both a mobile and a datacentre keyword classifies as `"mobile"`), and when
no keyword of any set matches the result is `"unknown"`
(geoip_enricher.py lines 46-81). -/
theorem C5_classifier_priority (isp org asn : String) :
    infer_connection_type isp org asn = classifySpec isp org asn ∧
    (anyKeyword (pyLower (isp ++ " " ++ org ++ " " ++ asn)) mobile_keywords = true →
        infer_connection_type isp org asn = "mobile") ∧
    (anyKeyword (pyLower (isp ++ " " ++ org ++ " " ++ asn)) mobile_keywords = false →
     anyKeyword (pyLower (isp ++ " " ++ org ++ " " ++ asn)) datacenter_keywords = false →
     anyKeyword (pyLower (isp ++ " " ++ org ++ " " ++ asn)) fiber_keywords = false →
     anyKeyword (pyLower (isp ++ " " ++ org ++ " " ++ asn)) dsl_keywords = false →
        infer_connection_type isp org asn = "unknown") := by
  refine ⟨infer_eq_classifySpec isp org asn, ?_, ?_⟩
  · intro hm
    unfold infer_connection_type
    simp [hm]
  · intro hm hd hf hs
    unfold infer_connection_type
    simp [hm, hd, hf, hs]

/-- Witness for C5: `"Mobile Cloud Services" / "Vodafone" / "AS12345"`
contains both a mobile keyword and a datacentre keyword (`cloud`) and
classifies as `"mobile"`; a keywordless input classifies as `"unknown"`. -/
theorem C5_classifier_priority_witness :
    infer_connection_type "Mobile Cloud Services" "Vodafone" "AS12345" = "mobile" ∧
    infer_connection_type "Example Telecom" "Example" "AS99" = "unknown" := by
  constructor
  · exact (C5_classifier_priority "Mobile Cloud Services" "Vodafone" "AS12345").2.1
      (by decide)
  · exact (C5_classifier_priority "Example Telecom" "Example" "AS99").2.2
      (by decide) (by decide) (by decide) (by decide)

theorem toLower_idem (c : Char) : c.toLower.toLower = c.toLower := by
  unfold Char.toLower
  simp only [Char.toNat]
  split
  · next h =>
    have hv : (c.val.toNat + 32).isValidChar := by
      constructor
      omega
    rw [Char.ofNat, dif_pos hv]
    have hval : (Char.ofNatAux (c.val.toNat + 32) hv).val.toNat = c.val.toNat + 32 := by
      simp [Char.ofNatAux, UInt32.ofNat', UInt32.toNat, BitVec.toNat_ofNatLt]
    rw [if_neg]
    rw [hval]
    omega
  · rfl

theorem pyLower_pyLower (s : String) : pyLower (pyLower s) = pyLower s := by
  unfold pyLower
  show String.mk ((s.data.map Char.toLower).map Char.toLower) = _
  rw [List.map_map]
  congr 1
  exact List.map_congr_left fun c _ => toLower_idem c

theorem pyLower_append (s t : String) :
    pyLower (s ++ t) = pyLower s ++ pyLower t := by
  unfold pyLower
  show String.mk ((s ++ t).data.map Char.toLower) = _
  rw [String.data_append, List.map_append]
  rfl

theorem pyLower_space : pyLower " " = " " := rfl

/-- C8: the classifier is case-insensitive — lowercasing its three inputs
does not change its output; in particular
`classify("AWS","AMAZON","AS1") = classify("aws","amazon","as1")`
(geoip_enricher.py line 59: the combined string is lowercased before
matching, and every keyword is already lowercase). -/
theorem C8_classifier_case_insensitive (x y z : String) :
    infer_connection_type x y z =
      infer_connection_type (pyLower x) (pyLower y) (pyLower z) ∧
    infer_connection_type "AWS" "AMAZON" "AS1" =
      infer_connection_type "aws" "amazon" "as1" := by
  have key : ∀ a b c : String,
      pyLower (pyLower a ++ " " ++ pyLower b ++ " " ++ pyLower c) =
        pyLower (a ++ " " ++ b ++ " " ++ c) := by
    intro a b c
    simp [pyLower_append, pyLower_pyLower, pyLower_space]
  constructor
  · unfold infer_connection_type
    rw [key]
  · have h1 : infer_connection_type "AWS" "AMAZON" "AS1" =
        infer_connection_type (pyLower "AWS") (pyLower "AMAZON") (pyLower "AS1") := by
      unfold infer_connection_type
      rw [key]
    rw [h1]
    rfl

theorem enrichAll_cons (provider : String) (ttl : Int)
    (fetch : String → Option RawGeoData) (now : Int) (cache : GeoCache)
    (ip : String) (rest : List String) :
    enrichAll provider ttl fetch now cache (ip :: rest) =
      ((enrich provider ttl cache ip (fetch ip) now).record ::
          (enrichAll provider ttl fetch now
            (enrich provider ttl cache ip (fetch ip) now).cache rest).1,
       (enrichAll provider ttl fetch now
          (enrich provider ttl cache ip (fetch ip) now).cache rest).2.1,
       (enrichAll provider ttl fetch now
          (enrich provider ttl cache ip (fetch ip) now).cache rest).2.2 + 1) := rfl

theorem enrichAll_length (provider : String) (ttl : Int)
    (fetch : String → Option RawGeoData) (now : Int) :
    ∀ (ips : List String) (cache : GeoCache),
      (enrichAll provider ttl fetch now cache ips).1.length = ips.length ∧
      (enrichAll provider ttl fetch now cache ips).2.2 = ips.length := by
  intro ips
  induction ips with
  | nil => intro cache; exact ⟨rfl, rfl⟩
  | cons ip rest ih =>
    intro cache
    rw [enrichAll_cons]
    have h := ih (enrich provider ttl cache ip (fetch ip) now).cache
    constructor
    · simpa using h.1
    · simpa using h.2

theorem dictFind_foldl_insert_isSome {V : Type} (pairs : List (String × V)) :
    ∀ (d : Dict V) (k : String),
      (dictFind (pairs.foldl (fun d p => dictInsert d p.1 p.2) d) k).isSome
        = ((dictFind d k).isSome || decide (k ∈ pairs.map Prod.fst)) := by
  induction pairs with
  | nil => intro d k; simp
  | cons p rest ih =>
    intro d k
    obtain ⟨k', v⟩ := p
    simp only [List.foldl_cons, List.map_cons, List.mem_cons]
    rw [ih]
    by_cases h : k' = k
    · subst h
      rw [dictFind_insert_self]
      simp
    · rw [dictFind_insert_ne d k' k v (fun he => h he)]
      simp [Ne.symm h]

theorem dictKeys_foldl_insert_nodup {V : Type} (pairs : List (String × V)) :
    ∀ d : Dict V, (dictKeys d).Nodup →
      (dictKeys (pairs.foldl (fun d p => dictInsert d p.1 p.2) d)).Nodup := by
  induction pairs with
  | nil => intro d h; exact h
  | cons p rest ih =>
    intro d h
    exact ih _ (dictKeys_insert_nodup d p.1 p.2 h)

/-- C4 counterexample: on the two-element input `["1.2.3.4", "1.2.3.4"]`
(one unique IP) `enrich_batch` creates one `enrich` task per *element*
(geoip_enricher.py line 194: `tasks = [self.enrich(ip) for ip in ips]`), so
two `enrich` calls are made, not one per unique input IP as the claim
states. -/
theorem C4_counterexample_calls_per_element :
    (enrichAll "ipapi.co" 86400 (fun _ => none) 0 [] ["1.2.3.4", "1.2.3.4"]).2.2 = 2 ∧
    (["1.2.3.4", "1.2.3.4"] : List String).dedup = ["1.2.3.4"] ∧
    (2 : Nat) ≠ (["1.2.3.4", "1.2.3.4"] : List String).dedup.length := by
  refine ⟨rfl, by decide, by decide⟩

/-- C4 (amended): `enrich_batch(ips)` fans out one `enrich` call per
*element* of `ips` (duplicates included, so duplicated IPs get duplicate
calls), and returns a mapping that contains a record for every IP occurring
in `ips`, duplicates collapsed to one key (the key set is duplicate-free);
no input IP is missing from the output for any fetch behaviour — including
one where every fetch fails (geoip_enricher.py lines 184-196). -/
theorem C4_enrich_batch_complete (provider : String) (ttl : Int)
    (cache : GeoCache) (ips : List String)
    (fetch : String → Option RawGeoData) (now : Int) :
    (enrichAll provider ttl fetch now cache ips).2.2 = ips.length ∧
    (∀ ip, ip ∈ ips →
        (dictFind (enrich_batch provider ttl cache ips fetch now).1 ip).isSome = true) ∧
    (dictKeys (enrich_batch provider ttl cache ips fetch now).1).Nodup := by
  refine ⟨(enrichAll_length provider ttl fetch now ips cache).2, ?_, ?_⟩
  · intro ip hip
    have hlen := (enrichAll_length provider ttl fetch now ips cache).1
    unfold enrich_batch
    show (dictFind (dictOfPairs
        (ips.zip (enrichAll provider ttl fetch now cache ips).1)) ip).isSome = true
    unfold dictOfPairs
    rw [dictFind_foldl_insert_isSome]
    have hfst : (ips.zip (enrichAll provider ttl fetch now cache ips).1).map Prod.fst
        = ips := List.map_fst_zip _ _ (le_of_eq hlen.symm)
    rw [hfst]
    simp [hip]
  · unfold enrich_batch
    show (dictKeys (dictOfPairs
        (ips.zip (enrichAll provider ttl fetch now cache ips).1))).Nodup
    unfold dictOfPairs
    exact dictKeys_foldl_insert_nodup _ [] (by simp [dictKeys])

/-- Witness for C4 (amended) at `ips = ["1.2.3.4", "1.2.3.4", "5.6.7.8"]`
with every fetch failing. -/
theorem C4_enrich_batch_complete_witness :
    (enrichAll "ipapi.co" 86400 (fun _ => none) 0 []
        ["1.2.3.4", "1.2.3.4", "5.6.7.8"]).2.2 = 3 ∧
    (dictFind (enrich_batch "ipapi.co" 86400 []
        ["1.2.3.4", "1.2.3.4", "5.6.7.8"] (fun _ => none) 0).1 "1.2.3.4").isSome
      = true ∧
    (dictFind (enrich_batch "ipapi.co" 86400 []
        ["1.2.3.4", "1.2.3.4", "5.6.7.8"] (fun _ => none) 0).1 "5.6.7.8").isSome
      = true := by
  have h := C4_enrich_batch_complete "ipapi.co" 86400 []
      ["1.2.3.4", "1.2.3.4", "5.6.7.8"] (fun _ => none) 0
  exact ⟨h.1, h.2.1 "1.2.3.4" (by decide), h.2.1 "5.6.7.8" (by decide)⟩

theorem geoLookup_empty (gd : Dict GeoRecord) (host : String)
    (h : gd.isEmpty = true) : dictFind gd host = none := by
  cases gd with
  | nil => rfl
  | cons p rest => simp [List.isEmpty] at h

/-- C9: during emission every ServiceRecord always yields its base metric,
and yields the enriched metric in addition exactly when a GeoRecord exists
in the enrichment mapping for the record's host; with no GeoRecord for the
host, only the base metric is emitted (prometheus_format.py lines 64-87). -/
theorem C9_emission (rows : List ScanRow) (gd : Option (Dict GeoRecord))
    (hm : Option (Dict String)) (row : ScanRow) (hrow : row ∈ rows) :
    Metric.base row.host (pyTarget hm row.host) row.protocol row.name
        row.product_detected row.port ∈ expose_nmap_scan_results rows gd hm ∧
    (∀ geo, geoLookup gd row.host = some geo →
        emitRow gd hm row =
          [Metric.base row.host (pyTarget hm row.host) row.protocol row.name
             row.product_detected row.port,
           Metric.enriched row.host (pyTarget hm row.host) row.protocol
             row.name row.product_detected geo.isp geo.asn geo.country
             geo.city geo.connection_type row.port] ∧
        Metric.enriched row.host (pyTarget hm row.host) row.protocol
            row.name row.product_detected geo.isp geo.asn geo.country
            geo.city geo.connection_type row.port
          ∈ expose_nmap_scan_results rows gd hm) ∧
    (geoLookup gd row.host = none →
        emitRow gd hm row =
          [Metric.base row.host (pyTarget hm row.host) row.protocol row.name
             row.product_detected row.port]) := by
  have hmem : ∀ m, m ∈ emitRow gd hm row →
      m ∈ expose_nmap_scan_results rows gd hm := by
    intro m hmm
    unfold expose_nmap_scan_results
    rw [List.mem_flatten]
    exact ⟨emitRow gd hm row, List.mem_map_of_mem _ hrow, hmm⟩
  have hbase : Metric.base row.host (pyTarget hm row.host) row.protocol row.name
      row.product_detected row.port ∈ emitRow gd hm row := by
    unfold emitRow
    cases gd with
    | none => simp
    | some d =>
      by_cases he : d.isEmpty
      · simp [he]
      · cases hf : dictFind d row.host <;> simp [he, hf]
  refine ⟨hmem _ hbase, ?_, ?_⟩
  · intro geo hgeo
    cases gd with
    | none => simp [geoLookup] at hgeo
    | some d =>
      simp only [geoLookup] at hgeo
      have hne : d.isEmpty = false := by
        cases d with
        | nil => simp [dictFind] at hgeo
        | cons p rest => rfl
      have hrow_eq : emitRow (some d) hm row =
          [Metric.base row.host (pyTarget hm row.host) row.protocol row.name
             row.product_detected row.port,
           Metric.enriched row.host (pyTarget hm row.host) row.protocol
             row.name row.product_detected geo.isp geo.asn geo.country
             geo.city geo.connection_type row.port] := by
        unfold emitRow
        simp only [hne, hgeo, Bool.false_eq_true, if_false]
      refine ⟨hrow_eq, hmem _ ?_⟩
      rw [hrow_eq]
      simp
  · intro hgeo
    cases gd with
    | none => rfl
    | some d =>
      simp only [geoLookup] at hgeo
      unfold emitRow
      by_cases he : d.isEmpty
      · simp [he]
      · simp [he, hgeo]

/-- Witness for C9: one row whose host is enriched and one map without the
host. -/
theorem C9_emission_witness :
    Metric.base "1.2.3.4" "1.2.3.4" "tcp" "http" "nginx" 80 ∈
      expose_nmap_scan_results [⟨"1.2.3.4", "tcp", 80, "http", "nginx"⟩]
        (some [("1.2.3.4", empty_data)]) none ∧
    emitRow (some [("1.2.3.4", empty_data)]) none ⟨"1.2.3.4", "tcp", 80, "http", "nginx"⟩ =
      [Metric.base "1.2.3.4" "1.2.3.4" "tcp" "http" "nginx" 80,
       Metric.enriched "1.2.3.4" "1.2.3.4" "tcp" "http" "nginx"
         "" "" "" "" "unknown" 80] ∧
    emitRow none none ⟨"1.2.3.4", "tcp", 80, "http", "nginx"⟩ =
      [Metric.base "1.2.3.4" "1.2.3.4" "tcp" "http" "nginx" 80] := by
  have h := C9_emission [⟨"1.2.3.4", "tcp", 80, "http", "nginx"⟩]
      (some [("1.2.3.4", empty_data)]) none ⟨"1.2.3.4", "tcp", 80, "http", "nginx"⟩
      (by decide)
  have h2 := C9_emission [⟨"1.2.3.4", "tcp", 80, "http", "nginx"⟩]
      none none ⟨"1.2.3.4", "tcp", 80, "http", "nginx"⟩ (by decide)
  exact ⟨h.1, (h.2.1 empty_data (by rfl)).1, h2.2.2 (by rfl)⟩

end NmapExporter
